import Mathlib

/-!
# Shallow embedding of `resolve-aws-secrets`

This file embeds the secret-resolution pipeline of the repository
(`src/main.rs`, `src/environment_processor.rs`, `src/secret_manager.rs`,
`src/ssm_manager.rs`) into Lean 4 and proves properties of it.

Modelling conventions:
* Rust `&str` / `String` values are Lean `String`s.  Rust's byte-level
  operations (`starts_with`, byte slicing `s[n..]`, `split(':')`) are
  modelled on the character list `String.data`; every prefix and separator
  used by the program is ASCII, so characters and bytes coincide on all
  relevant positions.
* The AWS SDK clients are external collaborators; they are modelled as
  oracles (functions returning `Except`), exactly at the interface the
  source code consumes (`get_secret_value`, `get_parameter`).
* Error values (`SdkError`, `Box<dyn Error>`) are modelled as `String`s;
  the `?` operator is the `Except` monad's bind, which preserves the error
  value unchanged, as the Rust conversions preserve the underlying error.
* `async` code: the only effects are the client calls; `join_all` followed
  by `collect::<Result<Vec<_>, _>>()` runs every future, keeps the results
  in input order and returns the first `Err` if any, which is
  value-equivalent to the `Except` monad's `mapM` used below.
-/

namespace ResolveAwsSecrets

/-- Rust `str::starts_with`: byte-sequence prefix test, modelled on the
character list of the string. -/
def starts_with (s pre : String) : Bool :=
  pre.data.isPrefixOf s.data

/-- Rust byte slicing `s[n..]`, used by `collect_secrets` after a prefix of
`n` ASCII bytes has been matched: drop the first `n` characters. -/
def str_drop (s : String) (n : Nat) : String :=
  String.mk (s.data.drop n)

/-- Rust `str::split(sep)` on a character list: split at every occurrence of
`sep`, keeping empty fields, producing (number of separators + 1) fields. -/
def split_char (sep : Char) : List Char → List (List Char)
  | [] => [[]]
  | c :: rest =>
    if c = sep then [] :: split_char sep rest
    else
      match split_char sep rest with
      | [] => [[c]]
      | field :: fields => (c :: field) :: fields

/-- Rust `value.split(':').collect::<Vec<&str>>()`. -/
def split_colon (s : String) : List String :=
  (split_char ':' s.data).map String.mk

/-- `SecretType` from `src/main.rs` (the spec's `SecretReference`):
`SecretsManagerArn` = the spec's `SecretStoreArn`, `SsmArn` = the spec's
`ParameterStoreArn`. -/
inductive SecretType where
  | SecretsManagerArn (arn : String)
  | SsmArn (arn : String)
  | Name (name : String)
deriving DecidableEq, Repr

/-- `parse_region_from_arn` from `src/main.rs`:
`arn.split(':').nth(3).map(String::from)` — the 4th colon-delimited field,
if present (`String::from` on `&str` is the identity on the text). -/
def parse_region_from_arn (arn : String) : Option String :=
  (split_colon arn)[3]?

/-- `determine_secret_type` from `src/main.rs`: strings starting with
`arn:` and having at least six colon-delimited fields are classified by the
third field (`parts[2]`, the service); everything else is a `Name`. -/
def determine_secret_type (value : String) : SecretType :=
  if starts_with value "arn:" then
    let parts := split_colon value
    if parts.length ≥ 6 then
      match parts[2]? with
      | some "secretsmanager" => SecretType.SecretsManagerArn value
      | some "ssm" => SecretType.SsmArn value
      | _ => SecretType.Name value
    else
      SecretType.Name value
  else
    SecretType.Name value

/-- The closure inside `collect_secrets` (`src/main.rs`): one environment
variable `(key, value)` is mapped to an optional pending fetch.  The three
prefix tests are in the source's order, so `SECRET_ARN_` and `SECRET_NAME_`
take priority over the generic `SECRET_`; `key[11..]` / `key[12..]` /
`key[7..]` strip the matched ASCII prefix. -/
def collect_one (kv : String × String) : Option (String × SecretType) :=
  let key := kv.1
  let value := kv.2
  if starts_with key "SECRET_ARN_" then
    some (str_drop key 11, determine_secret_type value)
  else if starts_with key "SECRET_NAME_" then
    some (str_drop key 12, SecretType.Name value)
  else if starts_with key "SECRET_" then
    some (str_drop key 7, determine_secret_type value)
  else
    none

/-- `collect_secrets` from `src/main.rs`, with the process environment
(`env::vars()`) passed explicitly as a key/value list. -/
def collect_secrets (env : List (String × String)) : List (String × SecretType) :=
  env.filterMap collect_one

/-- Error values (`SdkError<...>` / `Box<dyn std::error::Error>`). -/
abbrev Err := String

/-- `GetSecretValueOutput` of the secret-store SDK, at the fields the
program reads: `secret_string()` is `Option`al. -/
structure GetSecretValueOutput where
  secret_string : Option String
deriving DecidableEq, Repr

/-- `Parameter` of the parameter-store SDK: `value()` is `Option`al. -/
structure Parameter where
  value : Option String
deriving DecidableEq, Repr

/-- `GetParameterOutput` of the parameter-store SDK: `parameter()` is
`Option`al. -/
structure GetParameterOutput where
  parameter : Option Parameter
deriving DecidableEq, Repr

/-- A raw secret-store client (the SDK's `get_secret_value(...).send()`),
as consumed by `SecretsManagerClientTrait` in `src/secret_manager.rs` and
by the trait impls in `src/main.rs`: an oracle from secret id to
response. -/
abbrev SmClient := String → Except Err GetSecretValueOutput

/-- A raw parameter-store client (the SDK's
`get_parameter().name(..).with_decryption(..).send()`), as consumed by
`SsmClientTrait`: an oracle from (name, with_decryption) to response. -/
abbrev SsmClient := String → Bool → Except Err GetParameterOutput

/-- `SecretsManagerClientTrait for SecretsManagerClient` in `src/main.rs`:
forwards to the SDK and errors with "Secret value is not a string" when the
response carries no string value. -/
def sm_trait_get_secret_value (client : SmClient) (secret_id : String) :
    Except Err String :=
  match client secret_id with
  | Except.error e => Except.error e
  | Except.ok resp =>
    match resp.secret_string with
    | some s => Except.ok s
    | none => Except.error "Secret value is not a string"

/-- `SsmClientTrait for SsmClient` in `src/main.rs`: forwards to the SDK
and errors with "Parameter value is empty" when the response carries no
parameter value. -/
def ssm_trait_get_parameter (client : SsmClient) (name : String)
    (with_decryption : Bool) : Except Err String :=
  match client name with_decryption with
  | Except.error e => Except.error e
  | Except.ok resp =>
    match resp.parameter.bind Parameter.value with
    | some s => Except.ok s
    | none => Except.error "Parameter value is empty"

/-- The interface of `SecretsManagerClientTrait` (`src/main.rs`), the type
at which `get_secret_value` receives its secret-store client. -/
abbrev SmClientT := String → Except Err String

/-- The interface of `SsmClientTrait` (`src/main.rs`), the type at which
`get_secret_value` receives its parameter-store client. -/
abbrev SsmClientT := String → Bool → Except Err String

/-- `get_secret_value` from `src/main.rs`: route a reference to the right
backend call — secret-store for `SecretsManagerArn`, parameter-store with
`with_decryption = true` for `SsmArn` and `Name`. -/
def get_secret_value (sm_client : SmClientT) (ssm_client : SsmClientT) :
    SecretType → Except Err String
  | SecretType.SecretsManagerArn arn => sm_client arn
  | SecretType.SsmArn arn => ssm_client arn true
  | SecretType.Name arn => ssm_client arn true

/-- Identity of a `RegionalClientPair` in the pool of
`fetch_secret_values` (`src/main.rs`).  In the source a pair is a pair of
`Arc`s; two fetches see "reference-identical" clients exactly when they see
the same `PairId` here: `default` is the pair built once by
`setup_aws_clients(None)`, `regional r` is the pair stored in the
`region_clients` map under key `r`. -/
inductive PairId where
  | default
  | regional (region : String)
deriving DecidableEq, Repr

/-- The per-fetch client-selection `match` inside `fetch_secret_values`
(`src/main.rs`), as a pure routing function: typed ARNs with an extractable
region use that region's pooled pair (an empty region string is a regular
map key); typed ARNs without an extractable region and plain `Name`s use
the default pair. -/
def client_pair_for : SecretType → PairId
  | SecretType.SecretsManagerArn arn | SecretType.SsmArn arn =>
    match parse_region_from_arn arn with
    | some region => PairId.regional region
    | none => PairId.default
  | SecretType.Name _ => PairId.default

/-- The mutable pool state of `fetch_secret_values`: which regions already
hold a constructed pair (the key set of the `region_clients` `HashMap`),
plus a log of the regions for which `setup_aws_clients` was actually run by
`or_insert_with` (to count constructions). -/
structure PoolState where
  clients : List String
  constructions : List String
deriving DecidableEq, Repr

/-- The pool before any fetch runs: the `HashMap` starts empty. -/
def empty_pool : PoolState := ⟨[], []⟩

/-- `clients.entry(region).or_insert_with(|| setup_aws_clients(..))` under
the `Mutex` (`src/main.rs`): return the pair stored for `region`,
constructing and storing it first if absent.  The `Mutex` serialises
concurrent callers, so any concurrent execution is some sequence of these
atomic steps. -/
def pool_lookup (st : PoolState) (region : String) : PairId × PoolState :=
  if region ∈ st.clients then (PairId.regional region, st)
  else (PairId.regional region, ⟨region :: st.clients, region :: st.constructions⟩)

/-- The stateful client selection of one fetch task in
`fetch_secret_values`: same `match` as `client_pair_for`, threading the
pool state. -/
def client_for (st : PoolState) : SecretType → PairId × PoolState
  | SecretType.SecretsManagerArn arn | SecretType.SsmArn arn =>
    match parse_region_from_arn arn with
    | some region => pool_lookup st region
    | none => (PairId.default, st)
  | SecretType.Name _ => (PairId.default, st)

/-- A serialised run of the client selections of a batch of fetch tasks,
returning the pair each task got and the pool state they leave behind. -/
def run_client_for (st : PoolState) : List SecretType → List PairId × PoolState
  | [] => ([], st)
  | t :: ts =>
    let step := client_for st t
    let rest := run_client_for step.2 ts
    (step.1 :: rest.1, rest.2)

/-- One fetch task of `fetch_secret_values` (`src/main.rs`): select the
client pair for a reference and fetch through it.  `clients` maps each pair
identity to the behaviour of its two clients. -/
def fetch_one (clients : PairId → SmClientT × SsmClientT)
    (kt : String × SecretType) : Except Err (String × String) :=
  let pair := clients (client_pair_for kt.2)
  match get_secret_value pair.1 pair.2 kt.2 with
  | Except.error e => Except.error e
  | Except.ok v => Except.ok (kt.1, v)

/-- `fetch_secret_values` from `src/main.rs`: run every fetch and collect
the results.  `join_all` keeps the results in input order and
`collect::<Result<Vec<_>, _>>()` returns the first `Err` if any, so the
result equals the `Except` monad's `mapM` of the per-task fetch. -/
def fetch_secret_values (clients : PairId → SmClientT × SsmClientT)
    (secrets : List (String × SecretType)) :
    Except Err (List (String × String)) :=
  secrets.mapM (fetch_one clients)

/-- Insertion into the child process's environment map: `Command::envs`
inserts each pair in order, overwriting an existing entry of the same
key. -/
def env_insert (m : String → Option String) (key value : String) :
    String → Option String :=
  fun q => if q = key then some value else m q

/-- The environment `run_program` (`src/main.rs`) launches the child with:
`Command::new(..)` starts from the parent process's environment map, and
`.envs(env_vars)` inserts every resolved pair, overwriting inherited
entries of the same name. -/
def run_program_env (parent : String → Option String)
    (env_vars : List (String × String)) : String → Option String :=
  env_vars.foldl (fun m kv => env_insert m kv.1 kv.2) parent

/-- Lookup in the parent process's environment snapshot (process
environments bind each name at most once). -/
def env_to_map (env : List (String × String)) : String → Option String :=
  fun k => (env.find? (fun kv => kv.1 = k)).map (fun kv => kv.2)

/-- `status.code().unwrap_or(1)` (`src/main.rs`): the child's exit code,
or the fixed fallback 1 when the child did not exit cleanly (no code). -/
def child_exit_code (status : Option Nat) : Nat :=
  status.getD 1

/-- The observable outcome of `main` (`src/main.rs`). -/
inductive MainOutcome where
  | usage
  | resolveFailed (e : Err)
  | spawnFailed (e : Err)
  | exited (code : Nat)
deriving DecidableEq, Repr

/-- The behaviour of spawning the child: `run_program` returns the child's
`ExitStatus` (`some code` for a clean exit, `none` for abnormal
termination) or a spawn error.  It is an oracle over (program, args,
child environment). -/
abbrev Spawn := String → List String → (String → Option String) → Except Err (Option Nat)

/-- `main` from `src/main.rs`: fewer than two CLI arguments print usage and
exit 1; otherwise collect the secret references from the environment,
resolve them (`?` aborts before the child is spawned), spawn the program
with the merged environment (`?` aborts on spawn failure) and exit with the
child's code (1 on abnormal termination). -/
def main_model (args : List String) (env : List (String × String))
    (clients : PairId → SmClientT × SsmClientT) (spawn : Spawn) : MainOutcome :=
  if args.length < 2 then MainOutcome.usage
  else
    let program := args.getD 1 ""
    let program_args := args.drop 2
    let secrets := collect_secrets env
    match fetch_secret_values clients secrets with
    | Except.error e => MainOutcome.resolveFailed e
    | Except.ok env_vars =>
      match spawn program program_args (run_program_env (env_to_map env) env_vars) with
      | Except.error e => MainOutcome.spawnFailed e
      | Except.ok status => MainOutcome.exited (child_exit_code status)

/-- JSON values (`serde_json::Value`) at the granularity the program
inspects.  Numbers keep their lexeme: the program only ever distinguishes
strings from non-strings and objects from non-objects, it never reads a
numeric value.  Object entries are kept in document order with a duplicate
key overwriting the earlier entry (serde's map `insert`); the iteration
order of object entries is not relied on by any theorem below. -/
inductive Json where
  | null
  | bool (b : Bool)
  | num (raw : String)
  | str (s : String)
  | arr (elems : List Json)
  | obj (entries : List (String × Json))

/-- JSON insignificant whitespace. -/
def is_ws (c : Char) : Bool :=
  c = ' ' || c = '\t' || c = '\n' || c = '\r'

/-- Skip insignificant whitespace. -/
def skip_ws : List Char → List Char
  | [] => []
  | c :: rest => if is_ws c then skip_ws rest else c :: rest

/-- Value of a hexadecimal digit. -/
def hex_digit (c : Char) : Option Nat :=
  if c.isDigit then some (c.toNat - '0'.toNat)
  else if 'a' ≤ c ∧ c ≤ 'f' then some (c.toNat - 'a'.toNat + 10)
  else if 'A' ≤ c ∧ c ≤ 'F' then some (c.toNat - 'A'.toNat + 10)
  else none

/-- Single-character JSON string escapes. -/
def esc_char (c : Char) : Option Char :=
  if c = '"' then some '"'
  else if c = '\\' then some '\\'
  else if c = '/' then some '/'
  else if c = 'b' then some (Char.ofNat 8)
  else if c = 'f' then some (Char.ofNat 12)
  else if c = 'n' then some '\n'
  else if c = 'r' then some '\r'
  else if c = 't' then some '\t'
  else none

/-- Parse the body of a JSON string (the opening quote already consumed),
returning the decoded characters and the remaining input. -/
def parse_jstring : List Char → Except Err (List Char × List Char)
  | [] => Except.error "invalid JSON"
  | '"' :: rest => Except.ok ([], rest)
  | '\\' :: rest =>
    match rest with
    | 'u' :: h1 :: h2 :: h3 :: h4 :: rest2 =>
      match hex_digit h1, hex_digit h2, hex_digit h3, hex_digit h4 with
      | some a, some b, some c, some d =>
        match parse_jstring rest2 with
        | Except.ok (tail, rem) =>
          Except.ok (Char.ofNat (((a * 16 + b) * 16 + c) * 16 + d) :: tail, rem)
        | Except.error e => Except.error e
      | _, _, _, _ => Except.error "invalid JSON"
    | e :: rest2 =>
      match esc_char e with
      | some c =>
        match parse_jstring rest2 with
        | Except.ok (tail, rem) => Except.ok (c :: tail, rem)
        | Except.error err => Except.error err
      | none => Except.error "invalid JSON"
    | [] => Except.error "invalid JSON"
  | c :: rest =>
    if c.toNat < 32 then Except.error "invalid JSON"
    else
      match parse_jstring rest with
      | Except.ok (tail, rem) => Except.ok (c :: tail, rem)
      | Except.error e => Except.error e

/-- Parse the fraction and exponent part of a JSON number; `acc` holds the
lexeme consumed so far. -/
def parse_exp (acc : List Char) (cs : List Char) : Except Err (Json × List Char) :=
  match cs with
  | e :: rest =>
    if e = 'e' ∨ e = 'E' then
      let (sign, rest1) :=
        match rest with
        | '+' :: r => (['+'], r)
        | '-' :: r => (['-'], r)
        | _ => (([] : List Char), rest)
      let (digits, rest2) := rest1.span Char.isDigit
      if digits.isEmpty then Except.error "invalid JSON"
      else Except.ok (Json.num (String.mk (acc ++ e :: (sign ++ digits))), rest2)
    else Except.ok (Json.num (String.mk acc), cs)
  | [] => Except.ok (Json.num (String.mk acc), [])

/-- Parse an optional fraction then exponent. -/
def parse_frac (acc : List Char) (cs : List Char) : Except Err (Json × List Char) :=
  match cs with
  | '.' :: rest =>
    let (digits, rest2) := rest.span Char.isDigit
    if digits.isEmpty then Except.error "invalid JSON"
    else parse_exp (acc ++ '.' :: digits) rest2
  | _ => parse_exp acc cs

/-- Parse a JSON number (grammar of json.org: optional minus, integer part
without superfluous leading zero, optional fraction, optional exponent). -/
def parse_number (cs : List Char) : Except Err (Json × List Char) :=
  let (neg, cs1) :=
    match cs with
    | '-' :: rest => ((['-'] : List Char), rest)
    | _ => (([] : List Char), cs)
  match cs1 with
  | '0' :: rest =>
    (match rest with
     | d :: _ =>
       if d.isDigit then Except.error "invalid JSON"
       else parse_frac (neg ++ ['0']) rest
     | [] => parse_frac (neg ++ ['0']) [])
  | c :: rest =>
    if c.isDigit then
      let (digits, rest2) := rest.span Char.isDigit
      parse_frac (neg ++ c :: digits) rest2
    else Except.error "invalid JSON"
  | [] => Except.error "invalid JSON"

/-- serde's map `insert`: a duplicate object key overwrites the earlier
entry. -/
def obj_insert (entries : List (String × Json)) (k : String) (v : Json) :
    List (String × Json) :=
  match entries with
  | [] => [(k, v)]
  | (k0, v0) :: rest =>
    if k0 = k then (k0, v) :: rest else (k0, v0) :: obj_insert rest k v

mutual

/-- Parse one JSON value.  `fuel` bounds the recursion depth; every
recursive use consumes at least one input character per unit of fuel, so
`input length + 2` units always suffice. -/
def parse_value (fuel : Nat) (cs : List Char) : Except Err (Json × List Char) :=
  match fuel with
  | 0 => Except.error "invalid JSON"
  | Nat.succ fuel =>
    match skip_ws cs with
    | 'n' :: 'u' :: 'l' :: 'l' :: rest => Except.ok (Json.null, rest)
    | 't' :: 'r' :: 'u' :: 'e' :: rest => Except.ok (Json.bool true, rest)
    | 'f' :: 'a' :: 'l' :: 's' :: 'e' :: rest => Except.ok (Json.bool false, rest)
    | '"' :: rest =>
      (match parse_jstring rest with
       | Except.ok (chars, rem) => Except.ok (Json.str (String.mk chars), rem)
       | Except.error e => Except.error e)
    | '{' :: rest => parse_object fuel rest []
    | '[' :: rest =>
      (match skip_ws rest with
       | ']' :: rem => Except.ok (Json.arr [], rem)
       | _ => parse_array fuel rest [])
    | c :: rest =>
      if c = '-' ∨ c.isDigit then parse_number (c :: rest)
      else Except.error "invalid JSON"
    | [] => Except.error "invalid JSON"

/-- Parse the members of a JSON object (the opening brace already
consumed); `acc` holds the members parsed so far. -/
def parse_object (fuel : Nat) (cs : List Char) (acc : List (String × Json)) :
    Except Err (Json × List Char) :=
  match fuel with
  | 0 => Except.error "invalid JSON"
  | Nat.succ fuel =>
    match skip_ws cs with
    | '}' :: rest =>
      if acc.isEmpty then Except.ok (Json.obj acc, rest)
      else Except.error "invalid JSON"
    | '"' :: rest =>
      (match parse_jstring rest with
       | Except.error e => Except.error e
       | Except.ok (kchars, rem) =>
         match skip_ws rem with
         | ':' :: rem2 =>
           (match parse_value fuel rem2 with
            | Except.error e => Except.error e
            | Except.ok (v, rem3) =>
              let acc2 := obj_insert acc (String.mk kchars) v
              match skip_ws rem3 with
              | ',' :: rem4 => parse_object fuel rem4 acc2
              | '}' :: rem4 => Except.ok (Json.obj acc2, rem4)
              | _ => Except.error "invalid JSON")
         | _ => Except.error "invalid JSON")
    | _ => Except.error "invalid JSON"

/-- Parse the elements of a JSON array (the opening bracket already
consumed, at least one element present); `acc` holds the elements parsed
so far. -/
def parse_array (fuel : Nat) (cs : List Char) (acc : List Json) :
    Except Err (Json × List Char) :=
  match fuel with
  | 0 => Except.error "invalid JSON"
  | Nat.succ fuel =>
    match parse_value fuel cs with
    | Except.error e => Except.error e
    | Except.ok (v, rem) =>
      match skip_ws rem with
      | ',' :: rem2 => parse_array fuel rem2 (acc ++ [v])
      | ']' :: rem2 => Except.ok (Json.arr (acc ++ [v]), rem2)
      | _ => Except.error "invalid JSON"

end

/-- `serde_json::from_str::<Value>` as consumed by
`process_ssm_parameter`: parse one JSON value and require only whitespace
to follow; anything unparseable is an error. -/
def json_from_str (s : String) : Except Err Json :=
  match parse_value (s.length + 2) s.data with
  | Except.error e => Except.error e
  | Except.ok (j, rest) =>
    if (skip_ws rest).isEmpty then Except.ok j else Except.error "invalid JSON"

/-- `get_secret` from `src/secret_manager.rs`: fetch through the
secret-store client and take
`response.secret_string().unwrap_or_default()` — a response that carries
no string value yields the empty string, not an error. -/
def get_secret (client : SmClient) (arn : String) : Except Err String :=
  match client arn with
  | Except.error e => Except.error e
  | Except.ok resp => Except.ok (resp.secret_string.getD "")

/-- `get_ssm_parameter` from `src/ssm_manager.rs`: fetch through the
parameter-store client with `with_decryption = true` and take
`response.parameter().and_then(|p| p.value()).unwrap_or_default()` — a
response that carries no value yields the empty string, not an error. -/
def get_ssm_parameter (client : SsmClient) (arn : String) : Except Err String :=
  match client arn true with
  | Except.error e => Except.error e
  | Except.ok resp => Except.ok ((resp.parameter.bind Parameter.value).getD "")

/-- `key.strip_prefix("SECRET_").unwrap_or(&key)` in
`process_ssm_parameter` (`src/environment_processor.rs`): strip one
occurrence of the recognized key prefix if present. -/
def strip_secret_key (key : String) : String :=
  if starts_with key "SECRET_" then str_drop key 7 else key

/-- The member loop of `process_ssm_parameter`
(`src/environment_processor.rs`): a string-valued entry has the recognized
prefix stripped from its key and its string fetched through the
secret-store client (`get_secret(..)?` — a fetch error aborts); an entry
of any other JSON type is skipped with a non-fatal warning. -/
def process_entries (sm : SmClient) :
    List (String × Json) → Except Err (List (String × String))
  | [] => Except.ok []
  | (key, value) :: rest =>
    match value with
    | Json.str arn =>
      (match get_secret sm arn with
       | Except.error e => Except.error e
       | Except.ok secret_value =>
         match process_entries sm rest with
         | Except.error e => Except.error e
         | Except.ok others =>
           Except.ok ((strip_secret_key key, secret_value) :: others))
    | _ => process_entries sm rest

/-- `process_ssm_parameter` from `src/environment_processor.rs`: fetch the
indirection document (`get_ssm_parameter(..)?`), parse it as JSON
(`serde_json::from_str(..)?` — a parse failure aborts with the error),
then expand a JSON object member-wise; a non-object document yields zero
pending fetches with a non-fatal warning. -/
def process_ssm_parameter (ssm : SsmClient) (sm : SmClient) (arn : String) :
    Except Err (List (String × String)) :=
  match get_ssm_parameter ssm arn with
  | Except.error e => Except.error e
  | Except.ok parameter_value =>
    match json_from_str parameter_value with
    | Except.error e => Except.error e
    | Except.ok json_value =>
      match json_value with
      | Json.obj entries => process_entries sm entries
      | _ => Except.ok []

/-! ### Concrete client stubs used by counterexamples and witnesses -/

/-- A secret-store client whose responses carry no string value. -/
def sm_client_no_string : SmClient := fun _ => Except.ok ⟨none⟩

/-- A parameter-store client whose responses carry no parameter. -/
def ssm_client_no_parameter : SsmClient := fun _ _ => Except.ok ⟨none⟩

/-- A parameter-store client whose responses carry a parameter with no
value. -/
def ssm_client_no_value : SsmClient := fun _ _ => Except.ok ⟨some ⟨none⟩⟩

/-- A parameter-store client that stores `doc` under every name. -/
def ssm_client_doc (doc : String) : SsmClient :=
  fun _ _ => Except.ok ⟨some ⟨some doc⟩⟩

/-- A secret-store client that answers every fetch, tagging the identifier
it was asked for. -/
def sm_client_tagged : SmClient :=
  fun arn => Except.ok ⟨some ("sm-fetched:" ++ arn)⟩

/-- A `SecretsManagerClientTrait` oracle tagging its identifier. -/
def smT_tagged : SmClientT := fun arn => Except.ok ("SM:" ++ arn)

/-- An `SsmClientTrait` oracle tagging its identifier. -/
def ssmT_tagged : SsmClientT := fun arn _ => Except.ok ("SSM:" ++ arn)

/-- A client family for the pool whose every fetch fails. -/
def clients_all_fail : PairId → SmClientT × SsmClientT :=
  fun _ => (fun _ => Except.error "boom", fun _ _ => Except.error "boom")

/-- A client family for the pool whose every fetch succeeds, tagging the
identifier. -/
def clients_tagged : PairId → SmClientT × SsmClientT :=
  fun _ => (fun arn => Except.ok ("SM:" ++ arn), fun arn _ => Except.ok ("SSM:" ++ arn))

/-- A secret-store client whose every response is a fixed string-valued
secret whose text itself parses as a JSON object. -/
def sm_client_json_value : SmClient :=
  fun _ => Except.ok ⟨some "\x7b\"SECRET_X\":\"arn:y\"\x7d"⟩

/-! ### Helper lemmas -/

/-- `starts_with` is the character-list prefix relation. -/
theorem starts_with_iff (s p : String) :
    starts_with s p = true ↔ p.data <+: s.data := by
  simp [starts_with, List.isPrefixOf_iff_prefix]

/-- An `SECRET_ARN_` key also matches the generic `SECRET_` prefix. -/
theorem secret_of_arn (k : String) (h : starts_with k "SECRET_ARN_" = true) :
    starts_with k "SECRET_" = true := by
  rw [starts_with_iff] at h ⊢
  exact List.IsPrefix.trans (by decide) h

/-- A `SECRET_NAME_` key also matches the generic `SECRET_` prefix. -/
theorem secret_of_name (k : String) (h : starts_with k "SECRET_NAME_" = true) :
    starts_with k "SECRET_" = true := by
  rw [starts_with_iff] at h ⊢
  exact List.IsPrefix.trans (by decide) h

/-- A key can not match both the name-typed and the ARN-typed prefix. -/
theorem name_key_not_arn (k : String) (h : starts_with k "SECRET_NAME_" = true) :
    starts_with k "SECRET_ARN_" = false := by
  by_contra hc
  have harn : starts_with k "SECRET_ARN_" = true := by
    revert hc
    cases starts_with k "SECRET_ARN_" <;> simp
  rw [starts_with_iff] at h harn
  rcases List.prefix_or_prefix_of_prefix harn h with hp | hp
  · exact absurd hp (by decide)
  · exact absurd hp (by decide)

/-- The collector emits a pending fetch exactly for keys matching the
generic prefix (both specific prefixes refine it). -/
theorem collect_one_isSome (kv : String × String) :
    (collect_one kv).isSome = starts_with kv.1 "SECRET_" := by
  obtain ⟨k, v⟩ := kv
  unfold collect_one
  by_cases h1 : starts_with k "SECRET_ARN_" = true
  · simp [h1, secret_of_arn k h1]
  · by_cases h2 : starts_with k "SECRET_NAME_" = true
    · simp [h1, h2, secret_of_name k h2]
    · by_cases h3 : starts_with k "SECRET_" = true
      · simp [h1, h2, h3]
      · simp [h1, h2, h3]

/-! ### Claims -/

/-- C4: `determine_secret_type` is a total pure function: on strings that
start with `arn:` and have at least six colon-delimited segments, the third
segment decides the variant (`secretsmanager` → `SecretsManagerArn`,
`ssm` → `SsmArn`, any other service → `Name`); every other string yields
`Name`; being a Lean function, classification never fails. -/
theorem classifier_total_correct :
    (∀ v : String, starts_with v "arn:" = true → 6 ≤ (split_colon v).length →
      ((split_colon v)[2]? = some "secretsmanager" →
        determine_secret_type v = SecretType.SecretsManagerArn v) ∧
      ((split_colon v)[2]? = some "ssm" →
        determine_secret_type v = SecretType.SsmArn v) ∧
      (∀ svc, (split_colon v)[2]? = some svc →
        svc ≠ "secretsmanager" → svc ≠ "ssm" →
        determine_secret_type v = SecretType.Name v)) ∧
    (∀ v : String, starts_with v "arn:" = false ∨ (split_colon v).length < 6 →
      determine_secret_type v = SecretType.Name v) := by
  constructor
  · intro v harn hlen
    refine ⟨?_, ?_, ?_⟩
    · intro h2
      unfold determine_secret_type
      simp only [harn, if_true]
      rw [if_pos hlen, h2]
      rfl
    · intro h2
      unfold determine_secret_type
      simp only [harn, if_true]
      rw [if_pos hlen, h2]
      rfl
    · intro svc h2 hne1 hne2
      unfold determine_secret_type
      simp only [harn, if_true]
      rw [if_pos hlen, h2]
      split
      · rename_i heq
        cases heq
        exact absurd rfl hne1
      · rename_i heq
        cases heq
        exact absurd rfl hne2
      · rfl
  · intro v h
    unfold determine_secret_type
    rcases h with h | h
    · simp [h]
    · by_cases harn : starts_with v "arn:" = true
      · simp only [harn, if_true]
        rw [if_neg (by omega)]
      · simp [harn]

/-- C4 witness: the classifier at concrete inputs of every shape. -/
theorem classifier_total_correct_witness :
    determine_secret_type "arn:aws:secretsmanager:us-west-2:1:secret:x" =
      SecretType.SecretsManagerArn "arn:aws:secretsmanager:us-west-2:1:secret:x" ∧
    determine_secret_type "arn:aws:ssm:us-west-2:1:parameter/p" =
      SecretType.SsmArn "arn:aws:ssm:us-west-2:1:parameter/p" ∧
    determine_secret_type "arn:aws:iam:us-west-2:1:role/r" =
      SecretType.Name "arn:aws:iam:us-west-2:1:role/r" ∧
    determine_secret_type "mysecret" = SecretType.Name "mysecret" ∧
    determine_secret_type "arn:aws:secretsmanager" =
      SecretType.Name "arn:aws:secretsmanager" :=
  ⟨(classifier_total_correct.1 "arn:aws:secretsmanager:us-west-2:1:secret:x"
      (by decide) (by decide)).1 (by decide),
   ((classifier_total_correct.1 "arn:aws:ssm:us-west-2:1:parameter/p"
      (by decide) (by decide)).2).1 (by decide),
   ((classifier_total_correct.1 "arn:aws:iam:us-west-2:1:role/r"
      (by decide) (by decide)).2).2 "iam" (by decide) (by decide) (by decide),
   classifier_total_correct.2 "mysecret" (Or.inl (by decide)),
   classifier_total_correct.2 "arn:aws:secretsmanager" (Or.inr (by decide))⟩

/-- C7: `parse_region_from_arn` returns the 4th colon-delimited field
(segment index 3) for strings with at least 4 segments and `none` for
fewer; an empty 4th field gives `some ""`, distinct from `none`, and the
client selection treats it as a distinct valid region key, not as the
default pair. -/
theorem region_of_correct :
    (∀ s : String, ∀ h : 4 ≤ (split_colon s).length,
      parse_region_from_arn s = some ((split_colon s).get ⟨3, by omega⟩)) ∧
    (∀ s : String, (split_colon s).length < 4 → parse_region_from_arn s = none) ∧
    parse_region_from_arn "arn:aws:secretsmanager::123456789012:secret:x" = some "" ∧
    (some "" ≠ (none : Option String)) ∧
    client_pair_for
        (determine_secret_type "arn:aws:secretsmanager::123456789012:secret:x") =
      PairId.regional "" ∧
    PairId.regional "" ≠ PairId.default := by
  refine ⟨?_, ?_, by decide, by decide, by decide, by decide⟩
  · intro s h
    unfold parse_region_from_arn
    exact List.getElem?_eq_getElem (by omega)
  · intro s h
    unfold parse_region_from_arn
    exact List.getElem?_eq_none (by omega)

/-- C7 witness: concrete region extraction for a regular ARN, a too-short
string, and an empty 4th field. -/
theorem region_of_correct_witness :
    parse_region_from_arn "arn:aws:secretsmanager:us-west-2:1:secret:x" =
      some "us-west-2" ∧
    parse_region_from_arn "invalid:arn:format" = none :=
  ⟨region_of_correct.1 "arn:aws:secretsmanager:us-west-2:1:secret:x" (by decide),
   region_of_correct.2.1 "invalid:arn:format" (by decide)⟩

/-- C6: the collector emits one pending fetch per variable matching a
recognized prefix, with the output key formed by stripping that prefix; a
`SECRET_NAME_` variable is always classified as `Name` regardless of its
value's shape; the more specific `SECRET_ARN_` / `SECRET_NAME_` convention
wins over the generic `SECRET_`; variables matching no convention are
ignored. -/
theorem collector_conventions :
    (∀ k v : String, starts_with k "SECRET_ARN_" = true →
      collect_one (k, v) = some (str_drop k 11, determine_secret_type v)) ∧
    (∀ k v : String, starts_with k "SECRET_NAME_" = true →
      collect_one (k, v) = some (str_drop k 12, SecretType.Name v)) ∧
    (∀ k v : String, starts_with k "SECRET_" = true →
      starts_with k "SECRET_ARN_" = false →
      starts_with k "SECRET_NAME_" = false →
      collect_one (k, v) = some (str_drop k 7, determine_secret_type v)) ∧
    (∀ k v : String, starts_with k "SECRET_" = false →
      collect_one (k, v) = none) ∧
    (∀ env : List (String × String),
      (collect_secrets env).length =
        (env.filter (fun kv => starts_with kv.1 "SECRET_")).length) := by
  refine ⟨?_, ?_, ?_, ?_, ?_⟩
  · intro k v h
    unfold collect_one
    simp [h]
  · intro k v h
    unfold collect_one
    simp [h, name_key_not_arn k h]
  · intro k v h harn hname
    unfold collect_one
    simp [h, harn, hname]
  · intro k v h
    have harn : starts_with k "SECRET_ARN_" = false := by
      cases hb : starts_with k "SECRET_ARN_" with
      | false => rfl
      | true => rw [secret_of_arn k hb] at h; cases h
    have hname : starts_with k "SECRET_NAME_" = false := by
      cases hb : starts_with k "SECRET_NAME_" with
      | false => rfl
      | true => rw [secret_of_name k hb] at h; cases h
    unfold collect_one
    simp [h, harn, hname]
  · intro env
    induction env with
    | nil => rfl
    | cons hd tl ih =>
      have hs := collect_one_isSome hd
      cases hco : collect_one hd with
      | none =>
        rw [hco] at hs
        simp only [Option.isSome_none] at hs
        simp [collect_secrets, List.filterMap_cons, List.filter_cons, hco, ← hs,
          collect_secrets] at ih ⊢
        exact ih
      | some b =>
        rw [hco] at hs
        simp only [Option.isSome_some] at hs
        simp [collect_secrets, List.filterMap_cons, List.filter_cons, hco, ← hs,
          collect_secrets] at ih ⊢
        exact ih

/-- C6 witness: the collector's closure at one concrete input per
convention, including an ARN-shaped value under the name-typed convention
and an environment mixing all conventions. -/
theorem collector_conventions_witness :
    collect_one ("SECRET_ARN_DB_PASSWORD", "arn:aws:secretsmanager:us-west-2:1:secret:x") =
      some ("DB_PASSWORD",
        SecretType.SecretsManagerArn "arn:aws:secretsmanager:us-west-2:1:secret:x") ∧
    collect_one ("SECRET_NAME_API_KEY", "arn:aws:ssm:us-west-2:1:parameter/p") =
      some ("API_KEY", SecretType.Name "arn:aws:ssm:us-west-2:1:parameter/p") ∧
    collect_one ("SECRET_MIXED", "mixed_secret") =
      some ("MIXED", SecretType.Name "mixed_secret") ∧
    collect_one ("NOT_A_SECRET", "x") = none ∧
    (collect_secrets
        [("SECRET_ARN_A", "a"), ("SECRET_NAME_B", "b"), ("SECRET_C", "c"),
         ("IGNORED", "d")]).length = 3 := by
  refine ⟨?_, ?_, ?_, ?_, ?_⟩
  · have h := collector_conventions.1 "SECRET_ARN_DB_PASSWORD"
      "arn:aws:secretsmanager:us-west-2:1:secret:x" (by decide)
    rw [h]; rfl
  · have h := collector_conventions.2.1 "SECRET_NAME_API_KEY"
      "arn:aws:ssm:us-west-2:1:parameter/p" (by decide)
    rw [h]; rfl
  · have h := collector_conventions.2.2.1 "SECRET_MIXED" "mixed_secret"
      (by decide) (by decide) (by decide)
    rw [h]; rfl
  · exact collector_conventions.2.2.2.1 "NOT_A_SECRET" "x" (by decide)
  · rw [collector_conventions.2.2.2.2
      [("SECRET_ARN_A", "a"), ("SECRET_NAME_B", "b"), ("SECRET_C", "c"),
       ("IGNORED", "d")]]
    rfl

/-- C10: references classified as `SsmArn` or `Name` are fetched through
the parameter-store client's `get_parameter` with decryption always
enabled; the secret-store client is invoked only for `SecretsManagerArn`
references (its behaviour is irrelevant to the other variants).  The
standalone `get_ssm_parameter` likewise only ever consults its client at
`with_decryption = true`. -/
theorem backend_routing :
    (∀ (sm : SmClientT) (ssm : SsmClientT) (arn : String),
      get_secret_value sm ssm (SecretType.SsmArn arn) = ssm arn true) ∧
    (∀ (sm : SmClientT) (ssm : SsmClientT) (name : String),
      get_secret_value sm ssm (SecretType.Name name) = ssm name true) ∧
    (∀ (sm : SmClientT) (ssm : SsmClientT) (arn : String),
      get_secret_value sm ssm (SecretType.SecretsManagerArn arn) = sm arn) ∧
    (∀ (c₁ c₂ : SsmClient) (arn : String), c₁ arn true = c₂ arn true →
      get_ssm_parameter c₁ arn = get_ssm_parameter c₂ arn) := by
  refine ⟨fun _ _ _ => rfl, fun _ _ _ => rfl, fun _ _ _ => rfl, ?_⟩
  intro c₁ c₂ arn h
  unfold get_ssm_parameter
  rw [h]

/-- C10 witness: two parameter-store clients that differ everywhere except
at `with_decryption = true` are indistinguishable to `get_ssm_parameter`. -/
theorem backend_routing_witness :
    get_ssm_parameter (ssm_client_doc "x") "p" =
      get_ssm_parameter
        (fun _ d => if d then Except.ok ⟨some ⟨some "x"⟩⟩
                    else Except.error "undecrypted") "p" :=
  backend_routing.2.2.2 (ssm_client_doc "x")
    (fun _ d => if d then Except.ok ⟨some ⟨some "x"⟩⟩
                else Except.error "undecrypted") "p" rfl

/-- Helper: `fetch_secret_values` returns an error whenever some pending
fetch fails, and the error it returns is the error of one of the failing
fetches (the first in input order). -/
theorem fetch_error_of_mem (clients : PairId → SmClientT × SsmClientT)
    (secrets : List (String × SecretType))
    (hex : ∃ kt ∈ secrets, ∃ e, fetch_one clients kt = Except.error e) :
    ∃ e, fetch_secret_values clients secrets = Except.error e ∧
      ∃ kt ∈ secrets, fetch_one clients kt = Except.error e := by
  induction secrets with
  | nil =>
    obtain ⟨kt, hmem, _⟩ := hex
    exact absurd hmem (List.not_mem_nil kt)
  | cons hd tl ih =>
    obtain ⟨kt, hmem, e0, herr⟩ := hex
    cases hfo : fetch_one clients hd with
    | error e =>
      refine ⟨e, ?_, hd, List.mem_cons_self hd tl, hfo⟩
      show (hd :: tl).mapM (fetch_one clients) = Except.error e
      rw [List.mapM_cons]
      simp only [hfo]
      rfl
    | ok v =>
      have hmem' : kt ∈ tl := by
        rcases List.mem_cons.mp hmem with heq | h
        · subst heq; rw [hfo] at herr; cases herr
        · exact h
      obtain ⟨e, hfe, kt', hmem'', herr'⟩ := ih ⟨kt, hmem', e0, herr⟩
      refine ⟨e, ?_, kt', List.mem_cons_of_mem hd hmem'', herr'⟩
      show (hd :: tl).mapM (fetch_one clients) = Except.error e
      rw [List.mapM_cons]
      have hfe' : tl.mapM (fetch_one clients) = Except.error e := hfe
      simp only [hfo, hfe']
      rfl

/-- C1: if the backend fetch for any single pending reference fails, the
whole resolution returns that fetch's error, no (partial) list of resolved
values is observable, and `main` reports the resolution failure without
consulting the spawn behaviour at all — the child program is not
launched. -/
theorem resolution_fail_fast
    (clients : PairId → SmClientT × SsmClientT)
    (secrets : List (String × SecretType))
    (hex : ∃ kt ∈ secrets, ∃ e, fetch_one clients kt = Except.error e) :
    ∃ e : Err,
      fetch_secret_values clients secrets = Except.error e ∧
      (∃ kt ∈ secrets, fetch_one clients kt = Except.error e) ∧
      (∀ l, fetch_secret_values clients secrets ≠ Except.ok l) ∧
      (∀ (args : List String) (env : List (String × String)) (spawn : Spawn),
        2 ≤ args.length → collect_secrets env = secrets →
        main_model args env clients spawn = MainOutcome.resolveFailed e) := by
  obtain ⟨e, hfe, hwit⟩ := fetch_error_of_mem clients secrets hex
  refine ⟨e, hfe, hwit, ?_, ?_⟩
  · intro l hl
    rw [hfe] at hl
    cases hl
  · intro args env spawn hlen hcoll
    unfold main_model
    rw [if_neg (by omega)]
    simp only [hcoll, hfe]

/-- C1 witness: one failing fetch in a one-element batch makes the whole
resolution fail with that error and `main` not launch the child, whatever
the spawn behaviour would do. -/
theorem resolution_fail_fast_witness :
    fetch_secret_values clients_all_fail [("K", SecretType.Name "n")] =
      Except.error "boom" ∧
    main_model ["launcher", "child"] [("SECRET_K", "n")] clients_all_fail
      (fun _ _ _ => Except.ok (some 0)) = MainOutcome.resolveFailed "boom" := by
  obtain ⟨e, hfe, -, -, hmain⟩ :=
    resolution_fail_fast clients_all_fail [("K", SecretType.Name "n")]
      ⟨("K", SecretType.Name "n"), List.mem_cons_self _ _, "boom", rfl⟩
  have hcomp : fetch_secret_values clients_all_fail [("K", SecretType.Name "n")] =
      Except.error "boom" := rfl
  rw [hcomp] at hfe
  cases hfe
  exact ⟨hcomp,
    hmain ["launcher", "child"] [("SECRET_K", "n")] (fun _ _ _ => Except.ok (some 0))
      (by decide) (by decide)⟩

/-- Helper: the pair identity handed to a fetch does not depend on the pool
state, only on the reference (the pool stores the pair for a region under
that region's key, so both the hit and the miss branch of
`or_insert_with` hand back the pair identified by the region). -/
theorem client_for_fst (st : PoolState) (t : SecretType) :
    (client_for st t).1 = client_pair_for t := by
  cases t with
  | SecretsManagerArn arn =>
    cases hr : parse_region_from_arn arn with
    | none => simp [client_for, client_pair_for, hr]
    | some region =>
      simp only [client_for, client_pair_for, hr, pool_lookup]
      split <;> rfl
  | SsmArn arn =>
    cases hr : parse_region_from_arn arn with
    | none => simp [client_for, client_pair_for, hr]
    | some region =>
      simp only [client_for, client_pair_for, hr, pool_lookup]
      split <;> rfl
  | Name name => rfl

/-- Helper: a typed ARN with an extractable region selects that region's
pooled pair. -/
theorem client_pair_region (t : SecretType) (arn r : String)
    (ht : t = SecretType.SecretsManagerArn arn ∨ t = SecretType.SsmArn arn)
    (hr : parse_region_from_arn arn = some r) :
    client_pair_for t = PairId.regional r := by
  rcases ht with rfl | rfl <;> simp [client_pair_for, hr]

/-- Helper: one client-selection step preserves the pool invariant that a
region has been constructed at most once, and only if it is present in the
map. -/
theorem pool_inv_step (st : PoolState) (t : SecretType) (r : String)
    (h : st.constructions.count r ≤ if r ∈ st.clients then 1 else 0) :
    ((client_for st t).2).constructions.count r ≤
      if r ∈ (client_for st t).2.clients then 1 else 0 := by
  have step : ∀ arn : String,
      ((client_for st (SecretType.SecretsManagerArn arn)).2).constructions.count r ≤
        (if r ∈ (client_for st (SecretType.SecretsManagerArn arn)).2.clients
         then 1 else 0) ∧
      ((client_for st (SecretType.SsmArn arn)).2).constructions.count r ≤
        (if r ∈ (client_for st (SecretType.SsmArn arn)).2.clients
         then 1 else 0) := by
    intro arn
    cases hr : parse_region_from_arn arn with
    | none =>
      constructor <;> simpa [client_for, hr] using h
    | some region =>
      have core : (pool_lookup st region).2.constructions.count r ≤
          if r ∈ (pool_lookup st region).2.clients then 1 else 0 := by
        unfold pool_lookup
        by_cases hm : region ∈ st.clients
        · simpa [hm] using h
        · rw [if_neg hm]
          by_cases hrr : r = region
          · subst hrr
            have h0 : st.constructions.count r = 0 := by
              rw [if_neg hm] at h
              omega
            have hmem : r ∈ r :: st.clients := List.mem_cons_self r st.clients
            simp only [if_pos hmem]
            simp [List.count_cons, h0]
          · have hcnt : (region :: st.constructions).count r =
                st.constructions.count r := by
              simp [List.count_cons, hrr]
            by_cases hin : r ∈ st.clients
            · rw [if_pos hin] at h
              rw [if_pos (List.mem_cons_of_mem region hin)]
              simpa [hcnt] using h
            · rw [if_neg hin] at h
              rw [if_neg (by simp [List.mem_cons, hrr, hin])]
              simpa [hcnt] using h
      constructor <;> simpa [client_for, hr] using core
  cases t with
  | SecretsManagerArn arn => exact (step arn).1
  | SsmArn arn => exact (step arn).2
  | Name name => exact h

/-- Helper: the pool invariant holds after any serialised batch of client
selections. -/
theorem run_pool_inv (refs : List SecretType) (st : PoolState) (r : String)
    (h : st.constructions.count r ≤ if r ∈ st.clients then 1 else 0) :
    ((run_client_for st refs).2).constructions.count r ≤
      if r ∈ (run_client_for st refs).2.clients then 1 else 0 := by
  induction refs generalizing st with
  | nil => exact h
  | cons t ts ih =>
    show ((run_client_for (client_for st t).2 ts).2).constructions.count r ≤ _
    exact ih _ (pool_inv_step st t r h)

/-- C8: client pooling is idempotent — any two typed-ARN references
carrying the same explicit region resolve through the identical client
pair whatever the pool state (`Mutex`-serialised concurrent first touches
included: over any serialised batch, at most one pair is ever constructed
per region), and a typed-ARN reference with no extractable region and a
`Name` reference both resolve through the single default pair. -/
theorem pool_idempotent :
    (∀ (st₁ st₂ : PoolState) (t₁ t₂ : SecretType) (arn₁ arn₂ r : String),
      (t₁ = SecretType.SecretsManagerArn arn₁ ∨ t₁ = SecretType.SsmArn arn₁) →
      (t₂ = SecretType.SecretsManagerArn arn₂ ∨ t₂ = SecretType.SsmArn arn₂) →
      parse_region_from_arn arn₁ = some r → parse_region_from_arn arn₂ = some r →
      (client_for st₁ t₁).1 = (client_for st₂ t₂).1) ∧
    (∀ (refs : List SecretType) (r : String),
      ((run_client_for empty_pool refs).2).constructions.count r ≤ 1) ∧
    (∀ (st : PoolState) (t : SecretType) (arn name : String),
      (t = SecretType.SecretsManagerArn arn ∨ t = SecretType.SsmArn arn) →
      parse_region_from_arn arn = none →
      (client_for st t).1 = PairId.default ∧
      (client_for st (SecretType.Name name)).1 = PairId.default) := by
  refine ⟨?_, ?_, ?_⟩
  · intro st₁ st₂ t₁ t₂ arn₁ arn₂ r ht₁ ht₂ hr₁ hr₂
    rw [client_for_fst, client_for_fst,
      client_pair_region t₁ arn₁ r ht₁ hr₁, client_pair_region t₂ arn₂ r ht₂ hr₂]
  · intro refs r
    have h := run_pool_inv refs empty_pool r (by simp [empty_pool])
    revert h
    split <;> omega
  · intro st t arn name ht hr
    refine ⟨?_, rfl⟩
    rcases ht with rfl | rfl <;> simp [client_for, hr]

/-- C8 witness: a secret-store ARN and a parameter-store ARN in the same
region share one pair across different pool states; a batch touching the
same new region several times constructs it once; a region-less typed ARN
and a `Name` share the default pair. -/
theorem pool_idempotent_witness :
    (client_for empty_pool
        (SecretType.SecretsManagerArn "arn:aws:secretsmanager:us-west-2:1:secret:a")).1 =
      (client_for ⟨["us-west-2"], ["us-west-2"]⟩
        (SecretType.SsmArn "arn:aws:ssm:us-west-2:1:parameter/b")).1 ∧
    ((run_client_for empty_pool
        [SecretType.SecretsManagerArn "arn:aws:secretsmanager:us-west-2:1:secret:a",
         SecretType.SsmArn "arn:aws:ssm:us-west-2:1:parameter/b"]).2).constructions.count
      "us-west-2" ≤ 1 ∧
    (client_for empty_pool (SecretType.SecretsManagerArn "arn:aws")).1 =
      PairId.default ∧
    (client_for empty_pool (SecretType.Name "plain")).1 = PairId.default := by
  refine ⟨?_, ?_, ?_, ?_⟩
  · exact pool_idempotent.1 empty_pool ⟨["us-west-2"], ["us-west-2"]⟩ _ _
      "arn:aws:secretsmanager:us-west-2:1:secret:a"
      "arn:aws:ssm:us-west-2:1:parameter/b" "us-west-2"
      (Or.inl rfl) (Or.inr rfl) (by decide) (by decide)
  · exact pool_idempotent.2.1
      [SecretType.SecretsManagerArn "arn:aws:secretsmanager:us-west-2:1:secret:a",
       SecretType.SsmArn "arn:aws:ssm:us-west-2:1:parameter/b"] "us-west-2"
  · exact (pool_idempotent.2.2 empty_pool _ "arn:aws" "plain"
      (Or.inl rfl) (by decide)).1
  · exact (pool_idempotent.2.2 empty_pool
      (SecretType.SecretsManagerArn "arn:aws") "arn:aws" "plain"
      (Or.inl rfl) (by decide)).2

/-- C9: the child environment starts from the parent's full snapshot and
every resolved pair is overwritten/inserted on top (resolved values win
over inherited variables of the same name, untouched names pass through);
the wrapper exits with the child's exit code, 1 on abnormal termination
(no code); a missing program argument yields the usage outcome. -/
theorem launcher_behaviour :
    (∀ (parent : String → Option String) (env_vars : List (String × String))
       (k : String),
      (∀ kv ∈ env_vars, kv.1 ≠ k) →
      run_program_env parent env_vars k = parent k) ∧
    (∀ (parent : String → Option String) (env_vars : List (String × String))
       (k : String),
      (∃ kv ∈ env_vars, kv.1 = k) →
      ∃ v, run_program_env parent env_vars k = some v ∧ (k, v) ∈ env_vars) ∧
    (∀ (args : List String) (env : List (String × String))
       (clients : PairId → SmClientT × SsmClientT) (spawn : Spawn),
      args.length < 2 → main_model args env clients spawn = MainOutcome.usage) ∧
    (∀ (args : List String) (env : List (String × String))
       (clients : PairId → SmClientT × SsmClientT) (spawn : Spawn)
       (env_vars : List (String × String)) (status : Option Nat),
      2 ≤ args.length →
      fetch_secret_values clients (collect_secrets env) = Except.ok env_vars →
      spawn (args.getD 1 "") (args.drop 2)
          (run_program_env (env_to_map env) env_vars) = Except.ok status →
      main_model args env clients spawn =
        MainOutcome.exited (child_exit_code status)) ∧
    (∀ c : Nat, child_exit_code (some c) = c) ∧
    child_exit_code none = 1 := by
  have untouched : ∀ (env_vars : List (String × String))
      (parent : String → Option String) (k : String),
      (∀ kv ∈ env_vars, kv.1 ≠ k) →
      run_program_env parent env_vars k = parent k := by
    intro env_vars
    induction env_vars with
    | nil => intro parent k _; rfl
    | cons hd tl ih =>
      intro parent k hno
      show run_program_env (env_insert parent hd.1 hd.2) tl k = parent k
      rw [ih (env_insert parent hd.1 hd.2) k
        (fun kv hkv => hno kv (List.mem_cons_of_mem hd hkv))]
      unfold env_insert
      rw [if_neg (fun hk => hno hd (List.mem_cons_self hd tl) hk.symm)]
  refine ⟨fun parent ev k h => untouched ev parent k h, ?_, ?_, ?_, fun _ => rfl, rfl⟩
  · intro parent env_vars k
    induction env_vars generalizing parent with
    | nil =>
      rintro ⟨kv, hmem, _⟩
      exact absurd hmem (List.not_mem_nil kv)
    | cons hd tl ih =>
      rintro ⟨kv, hmem, hk⟩
      by_cases htl : ∃ kv ∈ tl, kv.1 = k
      · obtain ⟨v, hv, hvmem⟩ := ih (env_insert parent hd.1 hd.2) htl
        exact ⟨v, hv, List.mem_cons_of_mem hd hvmem⟩
      · have hhd : hd.1 = k := by
          rcases List.mem_cons.mp hmem with heq | hmtl
          · rw [← heq]; exact hk
          · exact absurd ⟨kv, hmtl, hk⟩ htl
        have hnone : ∀ kv ∈ tl, kv.1 ≠ k := by
          intro kv' hkv' hk'
          exact htl ⟨kv', hkv', hk'⟩
        refine ⟨hd.2, ?_, ?_⟩
        · show run_program_env (env_insert parent hd.1 hd.2) tl k = some hd.2
          rw [untouched tl (env_insert parent hd.1 hd.2) k hnone]
          unfold env_insert
          rw [if_pos hhd.symm]
        · have : (k, hd.2) = hd := by
            rw [← hhd]
          rw [this]
          exact List.mem_cons_self hd tl
  · intro args env clients spawn hlen
    unfold main_model
    rw [if_pos hlen]
  · intro args env clients spawn env_vars status hlen hfetch hspawn
    unfold main_model
    rw [if_neg (by omega)]
    simp only [hfetch, hspawn]

/-- C9 witness: an inherited variable passes through, a resolved variable
wins, a missing program argument yields usage, and the wrapper's exit code
follows the child's status (7 for a clean exit with 7, the fallback 1 for
abnormal termination). -/
theorem launcher_behaviour_witness :
    run_program_env (env_to_map [("PATH", "/bin")]) [("RESOLVED", "new")] "PATH" =
      env_to_map [("PATH", "/bin")] "PATH" ∧
    (∃ v, run_program_env (env_to_map [("PATH", "/bin")]) [("RESOLVED", "new")]
        "RESOLVED" = some v ∧ ("RESOLVED", v) ∈ [("RESOLVED", "new")]) ∧
    main_model ["launcher"] [] clients_tagged (fun _ _ _ => Except.ok (some 0)) =
      MainOutcome.usage ∧
    main_model ["launcher", "child"] [] clients_tagged
      (fun _ _ _ => Except.ok (some 7)) = MainOutcome.exited 7 ∧
    main_model ["launcher", "child"] [] clients_tagged
      (fun _ _ _ => Except.ok none) = MainOutcome.exited 1 := by
  refine ⟨?_, ?_, ?_, ?_, ?_⟩
  · exact launcher_behaviour.1 (env_to_map [("PATH", "/bin")]) [("RESOLVED", "new")]
      "PATH" (by simp)
  · exact launcher_behaviour.2.1 (env_to_map [("PATH", "/bin")]) [("RESOLVED", "new")]
      "RESOLVED" ⟨("RESOLVED", "new"), List.mem_cons_self _ _, rfl⟩
  · exact launcher_behaviour.2.2.1 ["launcher"] [] clients_tagged
      (fun _ _ _ => Except.ok (some 0)) (by decide)
  · exact launcher_behaviour.2.2.2.1 ["launcher", "child"] [] clients_tagged
      (fun _ _ _ => Except.ok (some 7)) [] (some 7) (by decide) rfl rfl
  · exact launcher_behaviour.2.2.2.1 ["launcher", "child"] [] clients_tagged
      (fun _ _ _ => Except.ok none) [] none (by decide) rfl rfl

/-- C2 counterexample: when the backend response carries no string value,
`get_secret` and `get_ssm_parameter` silently substitute the empty string
(`unwrap_or_default`) instead of failing — contradicting the claim that no
empty or default value is silently substituted. -/
theorem empty_default_silently_substituted :
    sm_client_no_string "arn:aws:secretsmanager:r:1:secret:x" =
      Except.ok ⟨none⟩ ∧
    get_secret sm_client_no_string "arn:aws:secretsmanager:r:1:secret:x" =
      Except.ok "" ∧
    get_ssm_parameter ssm_client_no_value "param" = Except.ok "" ∧
    get_ssm_parameter ssm_client_no_parameter "param2" = Except.ok "" :=
  ⟨rfl, rfl, rfl, rfl⟩

/-- C2 amended: a completed fetch binds exactly one string — either the
backend's string value, or, in `get_secret` / `get_ssm_parameter`
(`src/secret_manager.rs`, `src/ssm_manager.rs`), the empty string when the
response carries no string value (the empty default IS silently
substituted there); resolution fails exactly on backend call errors.  The
`src/main.rs` client implementations, by contrast, do fail on a missing
string value. -/
theorem fetch_value_or_empty_default :
    (∀ (client : SmClient) (arn : String) (e : Err),
      client arn = Except.error e → get_secret client arn = Except.error e) ∧
    (∀ (client : SmClient) (arn : String) (resp : GetSecretValueOutput),
      client arn = Except.ok resp →
      get_secret client arn = Except.ok (resp.secret_string.getD "")) ∧
    (∀ (client : SsmClient) (arn : String) (e : Err),
      client arn true = Except.error e →
      get_ssm_parameter client arn = Except.error e) ∧
    (∀ (client : SsmClient) (arn : String) (resp : GetParameterOutput),
      client arn true = Except.ok resp →
      get_ssm_parameter client arn =
        Except.ok ((resp.parameter.bind Parameter.value).getD "")) ∧
    (∀ (client : SmClient) (arn : String) (resp : GetSecretValueOutput),
      client arn = Except.ok resp → resp.secret_string = none →
      sm_trait_get_secret_value client arn =
        Except.error "Secret value is not a string") ∧
    (∀ (client : SsmClient) (name : String) (d : Bool) (resp : GetParameterOutput),
      client name d = Except.ok resp → resp.parameter.bind Parameter.value = none →
      ssm_trait_get_parameter client name d =
        Except.error "Parameter value is empty") := by
  refine ⟨?_, ?_, ?_, ?_, ?_, ?_⟩
  · intro client arn e h
    unfold get_secret
    rw [h]
  · intro client arn resp h
    unfold get_secret
    rw [h]
  · intro client arn e h
    unfold get_ssm_parameter
    rw [h]
  · intro client arn resp h
    unfold get_ssm_parameter
    rw [h]
  · intro client arn resp h hnone
    unfold sm_trait_get_secret_value
    rw [h]
    simp only [hnone]
  · intro client name d resp h hnone
    unfold ssm_trait_get_parameter
    rw [h]
    simp only [hnone]

/-- C2 witness: the four behaviours at concrete clients — backend error
propagated, backend string bound, empty default substituted by the
`secret_manager.rs` path, and the `main.rs` impl failing instead. -/
theorem fetch_value_or_empty_default_witness :
    get_secret (fun _ => Except.error "denied") "a" = Except.error "denied" ∧
    get_secret sm_client_tagged "a" = Except.ok "sm-fetched:a" ∧
    get_ssm_parameter ssm_client_no_value "p" = Except.ok "" ∧
    sm_trait_get_secret_value sm_client_no_string "a" =
      Except.error "Secret value is not a string" ∧
    ssm_trait_get_parameter ssm_client_no_parameter "p" true =
      Except.error "Parameter value is empty" :=
  ⟨fetch_value_or_empty_default.1 (fun _ => Except.error "denied") "a" "denied" rfl,
   fetch_value_or_empty_default.2.1 sm_client_tagged "a" ⟨some "sm-fetched:a"⟩ rfl,
   fetch_value_or_empty_default.2.2.2.1 ssm_client_no_value "p" ⟨some ⟨none⟩⟩ rfl,
   fetch_value_or_empty_default.2.2.2.2.1 sm_client_no_string "a" ⟨none⟩ rfl rfl,
   fetch_value_or_empty_default.2.2.2.2.2 ssm_client_no_parameter "p" true ⟨none⟩ rfl rfl⟩

/-- C3 counterexample: a fetched indirection document that is not valid
JSON at all does NOT yield zero pending fetches with a warning — the
parse error propagates (`serde_json::from_str(..)?`) and the resolution
for that entry point aborts with an error, as the repository's own test
`test_process_environment_invalid_json` asserts. -/
theorem invalid_json_document_aborts :
    process_ssm_parameter (ssm_client_doc "invalid-json") sm_client_tagged
      "arn:ssm:parameter" = Except.error "invalid JSON" := rfl

/-- C3 amended: a fetched indirection document that parses as JSON but is
not a JSON object yields zero pending fetches with a non-fatal warning and
does not abort the resolution; a document that is not valid JSON at all
aborts the resolution of that entry point with the parse error. -/
theorem non_object_document_inert :
    ∀ (ssm : SsmClient) (sm : SmClient) (arn doc : String),
      get_ssm_parameter ssm arn = Except.ok doc →
      ((∀ j, json_from_str doc = Except.ok j →
          (∀ entries, j ≠ Json.obj entries) →
          process_ssm_parameter ssm sm arn = Except.ok []) ∧
       (∀ e, json_from_str doc = Except.error e →
          process_ssm_parameter ssm sm arn = Except.error e)) := by
  intro ssm sm arn doc hdoc
  constructor
  · intro j hj hnotobj
    unfold process_ssm_parameter
    rw [hdoc]
    simp only [hj]
  · intro e he
    unfold process_ssm_parameter
    rw [hdoc]
    simp only [he]

/-- C3 amended witness: a valid non-object document (`5`) is inert; a
non-JSON document aborts with the parse error. -/
theorem non_object_document_inert_witness :
    process_ssm_parameter (ssm_client_doc "5") sm_client_tagged "p" =
      Except.ok [] ∧
    process_ssm_parameter (ssm_client_doc "not json") sm_client_tagged "p" =
      Except.error "invalid JSON" :=
  ⟨(non_object_document_inert (ssm_client_doc "5") sm_client_tagged "p" "5" rfl).1
      (Json.num "5") rfl (fun _ h => Json.noConfusion h),
   (non_object_document_inert (ssm_client_doc "not json") sm_client_tagged "p"
      "not json" rfl).2 "invalid JSON" rfl⟩

/-- C5 counterexample: a string entry of an indirection document is NOT
classified as the classifier of 4.1 would — classification of the value
`arn:aws:ssm:us-east-1:1:parameter/x` yields `SsmArn`, whose resolution
path is the parameter-store client, yet `process_ssm_parameter` fetches it
through the secret-store client (`get_secret`). -/
theorem indirection_bypasses_classifier :
    process_ssm_parameter
        (ssm_client_doc "\x7b\"B\":\"arn:aws:ssm:us-east-1:1:parameter/x\"\x7d")
        sm_client_tagged "doc-arn" =
      Except.ok [("B", "sm-fetched:arn:aws:ssm:us-east-1:1:parameter/x")] ∧
    determine_secret_type "arn:aws:ssm:us-east-1:1:parameter/x" =
      SecretType.SsmArn "arn:aws:ssm:us-east-1:1:parameter/x" ∧
    get_secret_value smT_tagged ssmT_tagged
        (determine_secret_type "arn:aws:ssm:us-east-1:1:parameter/x") =
      Except.ok "SSM:arn:aws:ssm:us-east-1:1:parameter/x" :=
  ⟨rfl, by decide, rfl⟩

/-- C5 amended: for a fetched indirection document that is a JSON object,
each string-valued entry has the recognized `SECRET_` prefix stripped once
to form the output key and its string fetched directly through the
secret-store client (`get_secret`), without classification; each entry of
any other JSON type is skipped with a non-fatal warning; no second level
of indirection is followed — the fetched value is bound literally, even
when it would itself parse as a JSON object. -/
theorem indirection_entry_expansion :
    ∀ (sm : SmClient) (key arn : String) (rest : List (String × Json))
      (v : String) (tail : List (String × String)),
      (get_secret sm arn = Except.ok v →
       process_entries sm rest = Except.ok tail →
       process_entries sm ((key, Json.str arn) :: rest) =
         Except.ok ((strip_secret_key key, v) :: tail)) ∧
      (∀ j, (∀ s, j ≠ Json.str s) →
        process_entries sm ((key, j) :: rest) = process_entries sm rest) := by
  intro sm key arn rest v tail
  constructor
  · intro hget hrest
    show (match get_secret sm arn with
      | Except.error e => Except.error e
      | Except.ok secret_value =>
        match process_entries sm rest with
        | Except.error e => Except.error e
        | Except.ok others =>
          Except.ok ((strip_secret_key key, secret_value) :: others)) =
      Except.ok ((strip_secret_key key, v) :: tail)
    rw [hget, hrest]
  · intro j hj
    cases j with
    | str s => exact absurd rfl (hj s)
    | null => rfl
    | bool b => rfl
    | num raw => rfl
    | arr elems => rfl
    | obj entries => rfl

/-- C5 amended witness: a string entry whose fetched value itself parses
as a JSON object is bound literally (no second-level expansion), with the
`SECRET_` prefix stripped; a numeric entry is skipped. -/
theorem indirection_entry_expansion_witness :
    process_entries sm_client_json_value [("SECRET_A", Json.str "arn:a")] =
      Except.ok [("A", "\x7b\"SECRET_X\":\"arn:y\"\x7d")] ∧
    process_entries sm_client_tagged [("N", Json.num "5"), ("B", Json.str "b")] =
      process_entries sm_client_tagged [("B", Json.str "b")] :=
  ⟨(indirection_entry_expansion sm_client_json_value "SECRET_A" "arn:a" []
      "\x7b\"SECRET_X\":\"arn:y\"\x7d" []).1 rfl rfl,
   (indirection_entry_expansion sm_client_tagged "N" "unused"
      [("B", Json.str "b")] "x" []).2 (Json.num "5")
      (fun _ h => Json.noConfusion h)⟩

end ResolveAwsSecrets
